import Mathlib

/-!
Shallow embedding of the mcp-probe observability pipeline
(event-bus.ts, event-registry.ts, websocket-hub.ts,
observable-task-store.ts, observable-transport.ts) and proofs about it.

JavaScript objects are modelled as structures of optional fields
(field presence = `Option.isSome`); arrays as `List`; `Date.now()` values
as an explicit `Nat` clock parameter; exceptions as `Except`.
-/

namespace McpProbe

/-- Runtime shape of an event object passed to `EventBus.emit` before the
timestamp is added.  The TypeScript `EventInput` union is erased at runtime:
`emit` spreads whatever object it receives, so every field is optional here
and `type` is an arbitrary string.  Opaque payloads (`params`, `result`,
`error`, `toolArgs`) are modelled as opaque strings. -/
structure EventInput where
  type : String
  id : Option Int := none
  method : Option String := none
  params : Option String := none
  result : Option String := none
  error : Option String := none
  taskId : Option String := none
  toolName : Option String := none
  toolArgs : Option String := none
  requestId : Option Int := none
  previousStatus : Option (Option String) := none
  newStatus : Option String := none
  statusMessage : Option String := none
deriving DecidableEq, Repr

/-- A finalized event: the input object spread together with the timestamp
assigned by `emit` (`{...event, timestamp: Date.now()}`). -/
structure Event where
  data : EventInput
  timestamp : Nat
deriving DecidableEq, Repr

/-- `{...event, timestamp: now}`. -/
def mkEvent (e : EventInput) (now : Nat) : Event := ⟨e, now⟩

/-- An event input that is missing a field the TypeScript `Event` union
declares as required for its `type` tag (or whose tag is not one of the
five known tags). -/
def isMalformedInput (e : EventInput) : Bool :=
  if e.type = "request" then e.id.isNone || e.method.isNone
  else if e.type = "response" then e.id.isNone
  else if e.type = "notification" then e.method.isNone
  else if e.type = "task:created" then
    e.taskId.isNone || e.toolName.isNone || e.requestId.isNone
  else if e.type = "task:status" then
    e.taskId.isNone || e.previousStatus.isNone || e.newStatus.isNone
  else true

/-- State of one `EventBus` (event-bus.ts): session id, ring-buffer capacity
`maxEvents`, and the buffered events in insertion order. -/
structure EventBus where
  sessionId : String
  maxEvents : Nat
  events : List Event
deriving DecidableEq, Repr

/-- `new EventBus(sessionId, options)`: `maxEvents = options.maxEvents ?? 1000`,
empty buffer. -/
def newEventBus (sessionId : String) (maxEvents : Option Nat) : EventBus :=
  { sessionId := sessionId, maxEvents := maxEvents.getD 1000, events := [] }

/-- Buffer part of `EventBus.emit`: push the stamped event, then
`if (this.events.length > this.maxEvents) this.events.shift()`. -/
def EventBus.emit (bus : EventBus) (e : EventInput) (now : Nat) : EventBus :=
  let pushed := bus.events ++ [mkEvent e now]
  { bus with events := if bus.maxEvents < pushed.length then pushed.tail else pushed }

/-- `get eventCount()`. -/
def EventBus.eventCount (bus : EventBus) : Nat := bus.events.length

/-- Argument object of `getEvents`. -/
structure GetEventsOptions where
  since : Option Nat := none
  limit : Option Nat := none
deriving DecidableEq, Repr

/-- JavaScript `Array.prototype.slice(start)` for a single start index:
a negative start counts from the end (clamped at 0), a non-negative start
is clamped at the length.  Note `-0 === 0` in JavaScript, so `slice(-0)`
is `slice(0)`, the whole array. -/
def jsSliceFrom (start : Int) (l : List α) : List α :=
  if start < 0 then l.drop (l.length + start).toNat
  else l.drop (min start.toNat l.length)

/-- `EventBus.getEvents(options)`: filter by `timestamp >= since` when
`since` is present, then, when `limit` is present and the filtered length
exceeds it, take `result.slice(-limit)`. -/
def EventBus.getEvents (bus : EventBus) (opts : GetEventsOptions) : List Event :=
  let result := match opts.since with
    | none => bus.events
    | some t => bus.events.filter (fun e => t ≤ e.timestamp)
  match opts.limit with
  | none => result
  | some l => if l < result.length then jsSliceFrom (-(l : Int)) result else result

/-- `EventBus.clear()`. -/
def EventBus.clear (bus : EventBus) : EventBus := { bus with events := [] }

/-- Node `EventEmitter` dispatch starting from listener index `i`:
listeners run synchronously in registration order; a throwing listener's
exception escapes from `emit` and the remaining listeners are not invoked.
Returns the indices of the listeners that were invoked, in order, together
with the escaping exception, if any. -/
def dispatchFrom (ev : Event) : List (Event → Except ε Unit) → Nat → List Nat × Option ε
  | [], _ => ([], none)
  | f :: rest, i =>
    match f ev with
    | Except.ok _ =>
      let r := dispatchFrom ev rest (i + 1)
      (i :: r.1, r.2)
    | Except.error er => ([i], some er)

/-- Node `EventEmitter` dispatch of one event to a listener list. -/
def dispatch (ls : List (Event → Except ε Unit)) (ev : Event) : List Nat × Option ε :=
  dispatchFrom ev ls 0

/-- Full `EventBus.emit`: stamp and append the event (with FIFO eviction),
then `super.emit('event', fullEvent)` over the registered listeners.
Returns the new bus state, the indices of the listeners invoked, and the
exception escaping to the caller of `emit`, if any. -/
def EventBus.emitFull (bus : EventBus) (ls : List (Event → Except ε Unit))
    (e : EventInput) (now : Nat) : EventBus × List Nat × Option ε :=
  let bus' := bus.emit e now
  let d := dispatch ls (mkEvent e now)
  (bus', d.1, d.2)

/-- Emit a whole sequence of (input, timestamp) pairs in order. -/
def EventBus.emitAll (bus : EventBus) (inputs : List (EventInput × Nat)) : EventBus :=
  inputs.foldl (fun b p => b.emit p.1 p.2) bus

/-- The last `n` elements of a list (all of it when it is shorter). -/
def lastN (n : Nat) (l : List α) : List α := l.drop (l.length - n)

-- Sanity checks on small concrete inputs.

def reqInput (i : Int) (m : String) : EventInput := { type := "request", id := some i, method := some m }

example :
    ((newEventBus "s" (some 3)).emitAll
      [(reqInput 1 "method-1", 1), (reqInput 2 "method-2", 2),
       (reqInput 3 "method-3", 3), (reqInput 4 "method-4", 4)]).events
    = [mkEvent (reqInput 2 "method-2") 2, mkEvent (reqInput 3 "method-3") 3,
       mkEvent (reqInput 4 "method-4") 4] := by decide

example :
    ((newEventBus "s" (some 10)).emitAll
      [(reqInput 1 "a", 1), (reqInput 2 "b", 2)]).getEvents { limit := some 0 }
    = [mkEvent (reqInput 1 "a") 1, mkEvent (reqInput 2 "b") 2] := by decide

example :
    ((newEventBus "s" (some 10)).emitAll
      [(reqInput 1 "a", 1), (reqInput 2 "b", 2), (reqInput 3 "c", 3)]).getEvents
      { since := some 2, limit := some 1 }
    = [mkEvent (reqInput 3 "c") 3] := by decide

/-! ## EventRegistry (event-registry.ts) -/

/-- Session metadata (`clientInfo` as name/version pair, `createdAt` as a
clock value). -/
structure SessionMetadata where
  clientInfo : Option (String × String) := none
  createdAt : Option Nat := none
deriving DecidableEq, Repr

/-- Signals the registry emits on its own `EventEmitter` interface. -/
inductive RegistrySignal
  | sessionCreated (sessionId : String) (metadata : SessionMetadata)
  | sessionClosed (sessionId : String)
  | busEvent (sessionId : String) (ev : Event)
deriving DecidableEq, Repr

/-- `Map.get`: first binding for the key, if any. -/
def assocLookup (k : String) : List (String × β) → Option β
  | [] => none
  | p :: rest => if p.1 = k then some p.2 else assocLookup k rest

/-- `Map.delete`: remove the bindings for the key. -/
def assocErase (k : String) : List (String × β) → List (String × β)
  | [] => []
  | p :: rest => if p.1 = k then assocErase k rest else p :: assocErase k rest

/-- State of the `EventRegistry`: per-session buses and metadata in
insertion order, plus the construction option `maxEventsPerSession`. -/
structure EventRegistry where
  maxEventsPerSession : Option Nat := none
  buses : List (String × EventBus) := []
  metadata : List (String × SessionMetadata) := []
deriving DecidableEq, Repr

/-- `EventRegistry.getBus(sessionId)`: lookup only, never creates. -/
def EventRegistry.getBus (r : EventRegistry) (sessionId : String) : Option EventBus :=
  assocLookup sessionId r.buses

/-- `EventRegistry.getOrCreateBus(sessionId)`: return the existing bus, or
create one with the configured capacity and remember it. -/
def EventRegistry.getOrCreateBus (r : EventRegistry) (sessionId : String) :
    EventRegistry × EventBus :=
  match assocLookup sessionId r.buses with
  | some bus => (r, bus)
  | none =>
    let bus := newEventBus sessionId r.maxEventsPerSession
    ({ r with buses := r.buses ++ [(sessionId, bus)] }, bus)

/-- `EventRegistry.setSessionMetadata`: no-op when no bus exists; otherwise
store the metadata and emit `session:created` exactly when the session had
no metadata yet. -/
def EventRegistry.setSessionMetadata (r : EventRegistry) (sessionId : String)
    (m : SessionMetadata) : EventRegistry × List RegistrySignal :=
  if (assocLookup sessionId r.buses).isNone then (r, [])
  else
    let isNew := (assocLookup sessionId r.metadata).isNone
    ({ r with metadata := assocErase sessionId r.metadata ++ [(sessionId, m)] },
     if isNew then [RegistrySignal.sessionCreated sessionId m] else [])

/-- `EventRegistry.closeSession(sessionId)`: when the bus exists, snapshot
its events (`bus.getEvents()`), delete bus and metadata, and emit
`session:closed`; otherwise return `undefined` and emit nothing. -/
def EventRegistry.closeSession (r : EventRegistry) (sessionId : String) :
    EventRegistry × Option (List Event) × List RegistrySignal :=
  match assocLookup sessionId r.buses with
  | none => (r, none, [])
  | some bus =>
    ({ r with buses := assocErase sessionId r.buses,
              metadata := assocErase sessionId r.metadata },
     some (bus.getEvents {}),
     [RegistrySignal.sessionClosed sessionId])

/-! ## WebSocketHub (websocket-hub.ts) -/

/-- Per-client hub state: the subscription set and whether the underlying
socket's `readyState` is `OPEN` (the guard checked by `send`).  `connId`
identifies the socket object. -/
structure ClientState where
  connId : Nat
  subscriptions : List String := []
  isOpen : Bool := true
deriving DecidableEq, Repr

/-- Summary entry served by `list_sessions`. -/
structure SessionEventSummary where
  sessionId : String
  eventCount : Nat
  clientInfo : Option (String × String) := none
  createdAt : Option Nat := none
deriving DecidableEq, Repr

/-- Server→client messages of the hub protocol. -/
inductive ServerMessage
  | event (sessionId : String) (ev : Event)
  | backfill (sessionId : String) (events : List Event)
  | sessions (sessions : List SessionEventSummary)
  | sessionCreated (sessionId : String) (clientInfo : Option (String × String))
      (createdAt : Option Nat)
  | sessionClosed (sessionId : String)
  | errorMsg (message : String)
deriving DecidableEq, Repr

/-- `WebSocketHub.send`: deliver only when the socket is open, silently
drop otherwise.  A delivery is recorded as (connection id, message). -/
def hubSend (c : ClientState) (msg : ServerMessage) : List (Nat × ServerMessage) :=
  if c.isOpen then [(c.connId, msg)] else []

/-- `WebSocketHub.broadcastToSubscribers`: send to every client whose
subscription set contains the session id or the wildcard. -/
def broadcastToSubscribers (clients : List ClientState) (sessionId : String)
    (msg : ServerMessage) : List (Nat × ServerMessage) :=
  clients.flatMap fun c =>
    if sessionId ∈ c.subscriptions ∨ "*" ∈ c.subscriptions then hubSend c msg else []

/-- `WebSocketHub.broadcast`: send to every client subscribed to the
wildcard. -/
def hubBroadcast (clients : List ClientState) (msg : ServerMessage) :
    List (Nat × ServerMessage) :=
  clients.flatMap fun c => if "*" ∈ c.subscriptions then hubSend c msg else []

/-- Registry `event` listener installed by `setupRegistryListeners`. -/
def handleRegistryEvent (clients : List ClientState) (sessionId : String) (ev : Event) :
    List (Nat × ServerMessage) :=
  broadcastToSubscribers clients sessionId (ServerMessage.event sessionId ev)

/-- Registry `session:created` listener installed by `setupRegistryListeners`. -/
def handleSessionCreated (clients : List ClientState) (sessionId : String)
    (m : SessionMetadata) : List (Nat × ServerMessage) :=
  hubBroadcast clients (ServerMessage.sessionCreated sessionId m.clientInfo m.createdAt)

/-- Registry `session:closed` listener installed by `setupRegistryListeners`. -/
def handleSessionClosed (clients : List ClientState) (sessionId : String) :
    List (Nat × ServerMessage) :=
  hubBroadcast clients (ServerMessage.sessionClosed sessionId)

/-- The `backfill` case of `WebSocketHub.handleClientMessage`: look the bus
up (never create), answer with its filtered events, or with an empty list
when the session is unknown. -/
def handleBackfill (r : EventRegistry) (c : ClientState) (sessionId : String)
    (since limit : Option Nat) : List (Nat × ServerMessage) :=
  match r.getBus sessionId with
  | some bus =>
    hubSend c (ServerMessage.backfill sessionId
      (bus.getEvents { since := since, limit := limit }))
  | none => hubSend c (ServerMessage.backfill sessionId [])

/-! ## ObservableTaskStore (observable-task-store.ts) -/

/-- The part of an SDK `Task` the decorator reads. -/
structure Task where
  taskId : String
  status : String
deriving DecidableEq, Repr

/-- Abstract model of the wrapped (inner) `TaskStore` over a state type `σ`:
`getTask` returns the stored task or `null`; the mutations may reject,
modelled with `Except`.  Arguments follow the TypeScript signatures
(`taskId`, then status/result data, then optional `sessionId`). -/
structure TaskStoreModel (σ : Type) where
  getTask : σ → String → Option String → Option Task
  updateTaskStatus : σ → String → String → Option String → Option String → Except String σ
  storeTaskResult : σ → String → String → String → Option String → Except String σ

/-- `ObservableTaskStore.updateTaskStatus`: read the task's current status
(`null` when absent) before delegating, delegate, and only on success emit
a `task:status` event with `previousStatus`, the new status and the
optional message. -/
def ObservableTaskStore.updateTaskStatus (inner : TaskStoreModel σ) (s : σ)
    (bus : EventBus) (now : Nat) (taskId status : String)
    (statusMessage sessionId : Option String) : Except String (σ × EventBus) :=
  let previousStatus := (inner.getTask s taskId sessionId).map Task.status
  match inner.updateTaskStatus s taskId status statusMessage sessionId with
  | Except.error er => Except.error er
  | Except.ok s1 =>
    Except.ok (s1, bus.emit
      { type := "task:status", taskId := some taskId,
        previousStatus := some previousStatus, newStatus := some status,
        statusMessage := statusMessage } now)

/-- `ObservableTaskStore.storeTaskResult`: same read-before / emit-after
protocol; the emitted `task:status` event carries no status message. -/
def ObservableTaskStore.storeTaskResult (inner : TaskStoreModel σ) (s : σ)
    (bus : EventBus) (now : Nat) (taskId status result : String)
    (sessionId : Option String) : Except String (σ × EventBus) :=
  let previousStatus := (inner.getTask s taskId sessionId).map Task.status
  match inner.storeTaskResult s taskId status result sessionId with
  | Except.error er => Except.error er
  | Except.ok s1 =>
    Except.ok (s1, bus.emit
      { type := "task:status", taskId := some taskId,
        previousStatus := some previousStatus, newStatus := some status } now)

/-! ## wrapTransportForObservability (observable-transport.ts) -/

/-- Runtime shape of an outbound JSON-RPC message; `some` means the field
is present on the object (the `'field' in msg` test). -/
structure JSONRPCMessage where
  method : Option String := none
  id : Option Int := none
  result : Option String := none
  error : Option String := none
  params : Option String := none
deriving DecidableEq, Repr

/-- `isNotification`: has `method` and no `id`. -/
def isNotificationMsg (m : JSONRPCMessage) : Bool :=
  m.method.isSome && !m.id.isSome

/-- `isResponse`: has `id` and (`result` or `error`). -/
def isResponseMsg (m : JSONRPCMessage) : Bool :=
  m.id.isSome && (m.result.isSome || m.error.isSome)

/-- Observable steps of the wrapped `send`: an emission into the bus, or
the delegation to the original `send`. -/
inductive SendAction
  | emitEvent (e : EventInput)
  | forward (m : JSONRPCMessage)
deriving DecidableEq, Repr

/-- The wrapped `transport.send` from `wrapTransportForObservability`, as
the ordered trace of its observable steps: classify by field presence,
emit at most one event, then always delegate the unmodified message. -/
def wrappedSend (m : JSONRPCMessage) : List SendAction :=
  if isNotificationMsg m then
    [SendAction.emitEvent { type := "notification", method := m.method, params := m.params },
     SendAction.forward m]
  else if isResponseMsg m then
    [SendAction.emitEvent { type := "response", id := m.id, result := m.result, error := m.error },
     SendAction.forward m]
  else
    [SendAction.forward m]

/-! ## Concrete sample states used by witnesses -/

/-- A bus holding two stamped request events. -/
def sampleBus : EventBus :=
  (newEventBus "session-1" (some 10)).emitAll [(reqInput 1 "a", 1), (reqInput 2 "b", 3)]

/-- A registry owning `sampleBus` under id `session-1`. -/
def sampleRegistry : EventRegistry :=
  { maxEventsPerSession := some 10, buses := [("session-1", sampleBus)], metadata := [] }

/-- Three open hub clients: one subscribed to `session-1`, one wildcard
subscriber, one with no subscriptions. -/
def sampleClients : List ClientState :=
  [{ connId := 1, subscriptions := ["session-1"] },
   { connId := 2, subscriptions := ["*"] },
   { connId := 3, subscriptions := [] }]

/-- A toy inner task store over a task-id association list, used by
witnesses: reads look the task up, mutations succeed exactly when the task
exists and replace its status. -/
def sampleInnerStore : TaskStoreModel (List (String × Task)) :=
  { getTask := fun s taskId _ => assocLookup taskId s,
    updateTaskStatus := fun s taskId status _ _ =>
      match assocLookup taskId s with
      | none => Except.error "task not found"
      | some t => Except.ok (assocErase taskId s ++ [(taskId, { t with status := status })]),
    storeTaskResult := fun s taskId status _ _ =>
      match assocLookup taskId s with
      | none => Except.error "task not found"
      | some t => Except.ok (assocErase taskId s ++ [(taskId, { t with status := status })]) }

/-- One stored task in `working` state. -/
def sampleTasks : List (String × Task) := [("task-1", { taskId := "task-1", status := "working" })]

/-! ## Helper lemmas -/

theorem getEvents_no_opts (bus : EventBus) : bus.getEvents {} = bus.events := rfl

theorem assocLookup_assocErase_self (k : String) (l : List (String × β)) :
    assocLookup k (assocErase k l) = none := by
  induction l with
  | nil => rfl
  | cons p rest ih =>
    by_cases h : p.1 = k
    · simp [assocErase, h, ih]
    · simp [assocErase, assocLookup, h, ih]

theorem lastN_of_length_le (l : List α) (h : l.length ≤ n) : lastN n l = l := by
  simp [lastN, Nat.sub_eq_zero_of_le h]

theorem lastN_tail_append (l m : List α) (h : K + 1 ≤ l.length) :
    lastN K (l.tail ++ m) = lastN K (l ++ m) := by
  rw [← List.drop_one, ← List.drop_append_of_le_length (by omega)]
  simp only [lastN, List.drop_drop, List.length_drop, List.length_append]
  congr 1
  omega

theorem emit_maxEvents (bus : EventBus) (e : EventInput) (now : Nat) :
    (bus.emit e now).maxEvents = bus.maxEvents := rfl

theorem emit_events_cases (bus : EventBus) (e : EventInput) (now : Nat) :
    (bus.emit e now).events =
      if bus.maxEvents < bus.events.length + 1
      then (bus.events ++ [mkEvent e now]).tail
      else bus.events ++ [mkEvent e now] := by
  simp [EventBus.emit]

theorem emit_length_le (bus : EventBus) (e : EventInput) (now : Nat)
    (h : bus.events.length ≤ bus.maxEvents) :
    (bus.emit e now).events.length ≤ bus.maxEvents := by
  rw [emit_events_cases]
  by_cases hc : bus.maxEvents < bus.events.length + 1 <;>
    simp [hc, List.length_tail] <;> omega

/-- The ring-buffer invariant: starting from a buffer within capacity,
emitting any sequence leaves exactly the last `maxEvents` of the
concatenated history. -/
theorem emitAll_events (inputs : List (EventInput × Nat)) :
    ∀ bus : EventBus, bus.events.length ≤ bus.maxEvents →
      (bus.emitAll inputs).events
        = lastN bus.maxEvents (bus.events ++ inputs.map fun p => mkEvent p.1 p.2) := by
  induction inputs with
  | nil =>
    intro bus h
    simpa [EventBus.emitAll] using (lastN_of_length_le bus.events h).symm
  | cons p rest ih =>
    intro bus h
    have hstep : bus.emitAll (p :: rest) = (bus.emit p.1 p.2).emitAll rest := rfl
    have hmax : (bus.emit p.1 p.2).maxEvents = bus.maxEvents := rfl
    have hlen : (bus.emit p.1 p.2).events.length ≤ bus.maxEvents :=
      emit_length_le bus p.1 p.2 h
    have hih := ih (bus.emit p.1 p.2) (by rw [hmax]; exact hlen)
    rw [hstep, hih, hmax, emit_events_cases]
    by_cases hc : bus.maxEvents < bus.events.length + 1
    · simp only [hc, if_pos]
      rw [lastN_tail_append _ _ (by simp; omega)]
      simp [List.append_assoc]
    · simp only [hc, if_neg, not_false_iff]
      simp [List.append_assoc]

theorem emitAll_maxEvents (inputs : List (EventInput × Nat)) :
    ∀ bus : EventBus, (bus.emitAll inputs).maxEvents = bus.maxEvents := by
  induction inputs with
  | nil => intro bus; rfl
  | cons p rest ih => intro bus; exact ih (bus.emit p.1 p.2)

/-! ## Claim theorems -/

/-- C1: for an `EventBus` with capacity `K` and `N > K` emissions,
`getEvents()` with no options returns exactly the last `K` stamped events
in emission order (the `N - K` oldest evicted FIFO), and `eventCount`
equals `K`. -/
theorem C1_capacity_fifo (sid : String) (K : Nat) (inputs : List (EventInput × Nat))
    (h : K < inputs.length) :
    ((newEventBus sid (some K)).emitAll inputs).getEvents {}
        = (inputs.map fun p => mkEvent p.1 p.2).drop (inputs.length - K)
      ∧ ((newEventBus sid (some K)).emitAll inputs).eventCount = K := by
  have hbase : (newEventBus sid (some K)).events.length ≤ (newEventBus sid (some K)).maxEvents := by
    simp [newEventBus]
  have hev := emitAll_events inputs (newEventBus sid (some K)) hbase
  have hmax : (newEventBus sid (some K)).maxEvents = K := rfl
  constructor
  · rw [getEvents_no_opts, hev, hmax]
    simp [lastN, newEventBus]
  · show ((newEventBus sid (some K)).emitAll inputs).events.length = K
    rw [hev, hmax]
    simp only [lastN, newEventBus, List.nil_append, List.length_drop, List.length_map]
    omega

/-- Concrete instance discharging C1's hypothesis: capacity 3, four
emissions, the three most recent survive. -/
theorem C1_capacity_fifo_witness :
    3 < ([(reqInput 1 "method-1", 1), (reqInput 2 "method-2", 2),
          (reqInput 3 "method-3", 3), (reqInput 4 "method-4", 4)] : List (EventInput × Nat)).length
    ∧ (((newEventBus "s" (some 3)).emitAll
          [(reqInput 1 "method-1", 1), (reqInput 2 "method-2", 2),
           (reqInput 3 "method-3", 3), (reqInput 4 "method-4", 4)]).getEvents {}
        = (([(reqInput 1 "method-1", 1), (reqInput 2 "method-2", 2),
             (reqInput 3 "method-3", 3), (reqInput 4 "method-4", 4)] : List (EventInput × Nat)).map
             fun p => mkEvent p.1 p.2).drop
            (([(reqInput 1 "method-1", 1), (reqInput 2 "method-2", 2),
               (reqInput 3 "method-3", 3), (reqInput 4 "method-4", 4)] : List (EventInput × Nat)).length - 3)
      ∧ ((newEventBus "s" (some 3)).emitAll
          [(reqInput 1 "method-1", 1), (reqInput 2 "method-2", 2),
           (reqInput 3 "method-3", 3), (reqInput 4 "method-4", 4)]).eventCount = 3) :=
  ⟨by decide,
   C1_capacity_fifo "s" 3
     [(reqInput 1 "method-1", 1), (reqInput 2 "method-2", 2),
      (reqInput 3 "method-3", 3), (reqInput 4 "method-4", 4)] (by decide)⟩

theorem jsSlice_neg_eq_lastN (R : List Event) (L : Nat) (hL : 0 < L) :
    jsSliceFrom (-(L : Int)) R = lastN L R := by
  have hneg : (-(L : Int)) < 0 := by omega
  have htn : ((R.length : Int) + -(L : Int)).toNat = R.length - L := by omega
  simp only [jsSliceFrom, if_pos hneg, lastN]
  rw [htn]

theorem mem_getEvents_since (bus : EventBus) (t : Nat) (lim : Option Nat) (e : Event)
    (h : e ∈ bus.getEvents { since := some t, limit := lim }) : t ≤ e.timestamp := by
  have hmem : e ∈ bus.events.filter (fun e => decide (t ≤ e.timestamp)) := by
    cases lim with
    | none => exact h
    | some l =>
      by_cases hc : l < (bus.events.filter (fun e => decide (t ≤ e.timestamp))).length
      · have : bus.getEvents { since := some t, limit := some l }
            = jsSliceFrom (-(l : Int)) (bus.events.filter (fun e => decide (t ≤ e.timestamp))) := by
          simp [EventBus.getEvents, hc]
        rw [this, jsSliceFrom] at h
        split at h <;> exact List.mem_of_mem_drop h
      · have : bus.getEvents { since := some t, limit := some l }
            = bus.events.filter (fun e => decide (t ≤ e.timestamp)) := by
          simp [EventBus.getEvents, hc]
        rwa [this] at h
  simpa using (List.mem_filter.mp hmem).2

/-- C2 counterexample: with one buffered event and `limit: 0`, `getEvents`
returns that event, not the zero most recent matches. -/
theorem C2_limit_zero_counterexample :
    ((newEventBus "s" (some 10)).emit (reqInput 1 "a") 1).getEvents { limit := some 0 }
        = [mkEvent (reqInput 1 "a") 1]
    ∧ ¬ (((newEventBus "s" (some 10)).emit (reqInput 1 "a") 1).getEvents { limit := some 0 }
        = []) := by
  constructor <;> decide

/-- C2 (amended to positive limits): every event returned under
`since = t` has `timestamp ≥ t`; a `since` beyond every buffered timestamp
yields the empty result; and for a positive limit `L` with more than `L`
matches, exactly the `L` most recent matches are returned in buffer
order.  (The pure embedding returns a snapshot, so the buffer itself is
untouched by construction.) -/
theorem C2_getEvents_since_limit (bus : EventBus) (t L : Nat) (since lim : Option Nat)
    (hL : 0 < L) :
    (∀ e ∈ bus.getEvents { since := some t, limit := lim }, t ≤ e.timestamp)
    ∧ ((∀ e ∈ bus.events, e.timestamp < t) →
        bus.getEvents { since := some t, limit := lim } = [])
    ∧ (L < (bus.getEvents { since := since, limit := none }).length →
        bus.getEvents { since := since, limit := some L }
          = lastN L (bus.getEvents { since := since, limit := none })) := by
  refine ⟨fun e he => mem_getEvents_since bus t lim e he, ?_, ?_⟩
  · intro hfut
    have hnil : bus.events.filter (fun e => decide (t ≤ e.timestamp)) = [] := by
      rw [List.filter_eq_nil_iff]
      intro e he
      simpa using Nat.not_le.mpr (hfut e he)
    cases lim with
    | none => simpa [EventBus.getEvents] using hnil
    | some l => simp [EventBus.getEvents, hnil]
  · intro hlen
    cases since with
    | none =>
      show (if L < bus.events.length then jsSliceFrom (-(L : Int)) bus.events else bus.events)
          = lastN L bus.events
      rw [if_pos (show L < bus.events.length from hlen), jsSlice_neg_eq_lastN _ L hL]
    | some t =>
      show (if L < (bus.events.filter (fun e => decide (t ≤ e.timestamp))).length
            then jsSliceFrom (-(L : Int)) (bus.events.filter (fun e => decide (t ≤ e.timestamp)))
            else bus.events.filter (fun e => decide (t ≤ e.timestamp)))
          = lastN L (bus.events.filter (fun e => decide (t ≤ e.timestamp)))
      rw [if_pos (show L < (bus.events.filter (fun e => decide (t ≤ e.timestamp))).length from hlen),
        jsSlice_neg_eq_lastN _ L hL]

/-- Concrete instance discharging C2's positive-limit hypothesis. -/
theorem C2_getEvents_since_limit_witness :
    0 < 1
    ∧ ((∀ e ∈ ((newEventBus "s" (some 10)).emitAll
          [(reqInput 1 "a", 1), (reqInput 2 "b", 3)]).getEvents
            { since := some 2, limit := none }, 2 ≤ e.timestamp)
      ∧ ((∀ e ∈ ((newEventBus "s" (some 10)).emitAll
            [(reqInput 1 "a", 1), (reqInput 2 "b", 3)]).events, e.timestamp < 2) →
          ((newEventBus "s" (some 10)).emitAll
            [(reqInput 1 "a", 1), (reqInput 2 "b", 3)]).getEvents
              { since := some 2, limit := none } = [])
      ∧ (1 < (((newEventBus "s" (some 10)).emitAll
            [(reqInput 1 "a", 1), (reqInput 2 "b", 3)]).getEvents
              { since := none, limit := none }).length →
          ((newEventBus "s" (some 10)).emitAll
            [(reqInput 1 "a", 1), (reqInput 2 "b", 3)]).getEvents
              { since := none, limit := some 1 }
            = lastN 1 (((newEventBus "s" (some 10)).emitAll
                [(reqInput 1 "a", 1), (reqInput 2 "b", 3)]).getEvents
                  { since := none, limit := none }))) :=
  ⟨by decide,
   C2_getEvents_since_limit
     ((newEventBus "s" (some 10)).emitAll [(reqInput 1 "a", 1), (reqInput 2 "b", 3)])
     2 1 none none (by decide)⟩

/-- C10: with a non-empty buffer, `getEvents({limit: 0})` returns the whole
buffer (not zero events): `slice(-0)` is `slice(0)`. -/
theorem C10_limit_zero_returns_all (bus : EventBus) (h : bus.events ≠ []) :
    bus.getEvents { limit := some 0 } = bus.events
    ∧ bus.getEvents { limit := some 0 } ≠ [] := by
  have key : bus.getEvents { limit := some 0 } = bus.events := by
    show (if 0 < bus.events.length then jsSliceFrom (-(0 : Int)) bus.events else bus.events)
        = bus.events
    by_cases hl : 0 < bus.events.length
    · simp [hl, jsSliceFrom]
    · simp [hl]
  exact ⟨key, key ▸ h⟩

/-- Concrete instance discharging C10's non-empty-buffer hypothesis. -/
theorem C10_limit_zero_returns_all_witness :
    ((newEventBus "s" (some 10)).emit (reqInput 1 "a") 1).events ≠ []
    ∧ (((newEventBus "s" (some 10)).emit (reqInput 1 "a") 1).getEvents { limit := some 0 }
        = ((newEventBus "s" (some 10)).emit (reqInput 1 "a") 1).events
      ∧ ((newEventBus "s" (some 10)).emit (reqInput 1 "a") 1).getEvents { limit := some 0 }
        ≠ []) :=
  ⟨by decide,
   C10_limit_zero_returns_all ((newEventBus "s" (some 10)).emit (reqInput 1 "a") 1)
     (by decide)⟩

theorem dispatchFrom_all_ok (ev : Event) (pre : List (Event → Except ε Unit))
    (f : Event → Except ε Unit) (post : List (Event → Except ε Unit)) (er : ε)
    (hpre : ∀ p ∈ pre, p ev = Except.ok ()) (hf : f ev = Except.error er) :
    ∀ i, dispatchFrom ev (pre ++ f :: post) i = (List.range' i (pre.length + 1), some er) := by
  induction pre with
  | nil =>
    intro i
    simp [dispatchFrom, hf, List.range'_succ]
  | cons p rest ih =>
    intro i
    have hp : p ev = Except.ok () := hpre p (by simp)
    have hrest : ∀ q ∈ rest, q ev = Except.ok () := fun q hq => hpre q (by simp [hq])
    simp [dispatchFrom, hp, ih hrest (i + 1), List.range'_succ]

/-- C3 counterexample: with a first listener that throws and a second
benign listener, `emit` lets the exception escape to its caller and never
invokes the second listener. -/
theorem C3_listener_throw_counterexample :
    ((newEventBus "s" (some 10)).emitFull
        [fun _ => Except.error "boom", fun _ => Except.ok ()] (reqInput 1 "a") 1).2.2
      = some "boom"
    ∧ ((newEventBus "s" (some 10)).emitFull
        [fun _ => Except.error "boom", fun _ => Except.ok ()] (reqInput 1 "a") 1).2.1
      = [0]
    ∧ ¬ (((newEventBus "s" (some 10)).emitFull
        [fun _ => Except.error "boom", fun _ => Except.ok ()] (reqInput 1 "a") 1).2.2
      = none) :=
  ⟨rfl, rfl, by decide⟩

/-- C3 (amended): the event is appended to the buffer exactly once before
any listener runs, so a throwing listener cannot corrupt the buffer; but
its exception escapes from `emit` into the caller, and the listeners
registered after the throwing one are not invoked for that event. -/
theorem C3_listener_exception (bus : EventBus)
    (pre post : List (Event → Except ε Unit)) (f : Event → Except ε Unit)
    (e : EventInput) (now : Nat) (er : ε)
    (hpre : ∀ p ∈ pre, p (mkEvent e now) = Except.ok ())
    (hf : f (mkEvent e now) = Except.error er) :
    bus.emitFull (pre ++ f :: post) e now
      = (bus.emit e now, List.range (pre.length + 1), some er) := by
  have hd := dispatchFrom_all_ok (mkEvent e now) pre f post er hpre hf 0
  simp [EventBus.emitFull, dispatch, hd, List.range_eq_range']

/-- Concrete instance discharging C3's hypotheses: one benign listener,
then a throwing one, then another benign one. -/
theorem C3_listener_exception_witness :
    (∀ p ∈ ([fun _ => Except.ok ()] : List (Event → Except String Unit)),
        p (mkEvent (reqInput 1 "a") 1) = Except.ok ())
    ∧ ((fun _ => Except.error "boom") (mkEvent (reqInput 1 "a") 1)
        = (Except.error "boom" : Except String Unit))
    ∧ (newEventBus "s" (some 10)).emitFull
        (([fun _ => Except.ok ()] : List (Event → Except String Unit))
          ++ (fun _ => Except.error "boom") :: [fun _ => Except.ok ()])
        (reqInput 1 "a") 1
      = ((newEventBus "s" (some 10)).emit (reqInput 1 "a") 1,
         List.range (([fun _ => Except.ok ()] : List (Event → Except String Unit)).length + 1),
         some "boom") :=
  ⟨fun p hp => by rw [List.mem_singleton] at hp; rw [hp], rfl,
   C3_listener_exception (newEventBus "s" (some 10))
     [fun _ => Except.ok ()] [fun _ => Except.ok ()]
     (fun _ => Except.error "boom") (reqInput 1 "a") 1 "boom"
     (fun p hp => by rw [List.mem_singleton] at hp; rw [hp]) rfl⟩

/-- C4 counterexample: a request object with no `method` field is
malformed, yet `emit` appends it to the buffer, changing the buffer
contents. -/
theorem C4_no_validation_counterexample :
    isMalformedInput { type := "request", id := some 1 } = true
    ∧ ((newEventBus "s" (some 10)).emit { type := "request", id := some 1 } 7).events
        = [mkEvent { type := "request", id := some 1 } 7]
    ∧ ¬ (((newEventBus "s" (some 10)).emit { type := "request", id := some 1 } 7).events
        = (newEventBus "s" (some 10)).events) :=
  ⟨by decide, by decide, by decide⟩

/-- C4 (amended): `emit` performs no runtime validation.  A malformed
event input is stamped and appended like any other (shown here below
capacity: the buffer grows by exactly that event) and the full malformed
event is dispatched to the listeners. -/
theorem C4_malformed_appended (bus : EventBus) (ls : List (Event → Except ε Unit))
    (e : EventInput) (now : Nat) (_hmal : isMalformedInput e = true)
    (hcap : bus.events.length < bus.maxEvents) :
    (bus.emitFull ls e now).1.events = bus.events ++ [mkEvent e now]
    ∧ (bus.emitFull ls e now).2 = dispatch ls (mkEvent e now) := by
  constructor
  · show (bus.emit e now).events = _
    rw [emit_events_cases, if_neg (by omega)]
  · rfl

/-- Concrete instance discharging C4's hypotheses. -/
theorem C4_malformed_appended_witness :
    isMalformedInput { type := "request", id := some 1 } = true
    ∧ (newEventBus "s" (some 10)).events.length < (newEventBus "s" (some 10)).maxEvents
    ∧ (((newEventBus "s" (some 10)).emitFull ([] : List (Event → Except String Unit))
          { type := "request", id := some 1 } 7).1.events
        = (newEventBus "s" (some 10)).events ++ [mkEvent { type := "request", id := some 1 } 7]
      ∧ ((newEventBus "s" (some 10)).emitFull ([] : List (Event → Except String Unit))
          { type := "request", id := some 1 } 7).2
        = dispatch ([] : List (Event → Except String Unit))
            (mkEvent { type := "request", id := some 1 } 7)) :=
  ⟨by decide, by decide,
   C4_malformed_appended (newEventBus "s" (some 10)) []
     { type := "request", id := some 1 } 7 (by decide) (by decide)⟩

theorem mem_hubSend (c : ClientState) (msg : ServerMessage) (pr : Nat × ServerMessage) :
    pr ∈ hubSend c msg ↔ c.isOpen = true ∧ pr = (c.connId, msg) := by
  cases hop : c.isOpen <;> simp [hubSend, hop]

theorem mem_broadcastToSubscribers (clients : List ClientState) (S : String)
    (msg : ServerMessage) (pr : Nat × ServerMessage) :
    pr ∈ broadcastToSubscribers clients S msg
      ↔ ∃ c ∈ clients, (S ∈ c.subscriptions ∨ "*" ∈ c.subscriptions)
          ∧ c.isOpen = true ∧ pr = (c.connId, msg) := by
  simp only [broadcastToSubscribers, List.mem_flatMap]
  constructor
  · rintro ⟨c, hc, hmem⟩
    by_cases hsub : S ∈ c.subscriptions ∨ "*" ∈ c.subscriptions
    · rw [if_pos hsub, mem_hubSend] at hmem
      exact ⟨c, hc, hsub, hmem.1, hmem.2⟩
    · rw [if_neg hsub] at hmem
      exact absurd hmem (List.not_mem_nil pr)
  · rintro ⟨c, hc, hsub, hop, rfl⟩
    exact ⟨c, hc, by rw [if_pos hsub, mem_hubSend]; exact ⟨hop, rfl⟩⟩

theorem mem_hubBroadcast (clients : List ClientState) (msg : ServerMessage)
    (pr : Nat × ServerMessage) :
    pr ∈ hubBroadcast clients msg
      ↔ ∃ c ∈ clients, "*" ∈ c.subscriptions ∧ c.isOpen = true ∧ pr = (c.connId, msg) := by
  simp only [hubBroadcast, List.mem_flatMap]
  constructor
  · rintro ⟨c, hc, hmem⟩
    by_cases hsub : "*" ∈ c.subscriptions
    · rw [if_pos hsub, mem_hubSend] at hmem
      exact ⟨c, hc, hsub, hmem.1, hmem.2⟩
    · rw [if_neg hsub] at hmem
      exact absurd hmem (List.not_mem_nil pr)
  · rintro ⟨c, hc, hsub, hop, rfl⟩
    exact ⟨c, hc, by rw [if_pos hsub, mem_hubSend]; exact ⟨hop, rfl⟩⟩

/-- C5: an open hub connection receives the `event` message for session S
iff its subscription set contains S or the wildcard, and the
`session_created` / `session_closed` broadcasts reach only wildcard
subscribers. -/
theorem C5_fanout_rule (clients : List ClientState) (S : String) (ev : Event)
    (meta : SessionMetadata)
    (hnodup : (clients.map ClientState.connId).Nodup) :
    (∀ c ∈ clients, c.isOpen = true →
      ((c.connId, ServerMessage.event S ev) ∈ handleRegistryEvent clients S ev
        ↔ (S ∈ c.subscriptions ∨ "*" ∈ c.subscriptions)))
    ∧ (∀ c ∈ clients, ∀ m : ServerMessage,
        (c.connId, m) ∈ handleSessionCreated clients S meta → "*" ∈ c.subscriptions)
    ∧ (∀ c ∈ clients, ∀ m : ServerMessage,
        (c.connId, m) ∈ handleSessionClosed clients S → "*" ∈ c.subscriptions) := by
  have hinj := List.inj_on_of_nodup_map hnodup
  refine ⟨?_, ?_, ?_⟩
  · intro c hc hop
    constructor
    · intro hmem
      rcases (mem_broadcastToSubscribers clients S (ServerMessage.event S ev)
          (c.connId, ServerMessage.event S ev)).mp hmem with ⟨c1, hc1, hsub, _, heq⟩
      have hid : c.connId = c1.connId := congrArg Prod.fst heq
      have : c = c1 := hinj hc hc1 hid
      rw [this]
      exact hsub
    · intro hsub
      exact (mem_broadcastToSubscribers clients S (ServerMessage.event S ev)
          (c.connId, ServerMessage.event S ev)).mpr ⟨c, hc, hsub, hop, rfl⟩
  · intro c hc m hmem
    rcases (mem_hubBroadcast clients
        (ServerMessage.sessionCreated S meta.clientInfo meta.createdAt)
        (c.connId, m)).mp hmem with ⟨c1, hc1, hsub, _, heq⟩
    have hid : c.connId = c1.connId := congrArg Prod.fst heq
    have : c = c1 := hinj hc hc1 hid
    rw [this]
    exact hsub
  · intro c hc m hmem
    rcases (mem_hubBroadcast clients (ServerMessage.sessionClosed S)
        (c.connId, m)).mp hmem with ⟨c1, hc1, hsub, _, heq⟩
    have hid : c.connId = c1.connId := congrArg Prod.fst heq
    have : c = c1 := hinj hc hc1 hid
    rw [this]
    exact hsub

/-- Concrete instance discharging C5's distinct-connection hypothesis. -/
theorem C5_fanout_rule_witness :
    (sampleClients.map ClientState.connId).Nodup
    ∧ ((∀ c ∈ sampleClients, c.isOpen = true →
        ((c.connId, ServerMessage.event "session-1" (mkEvent (reqInput 1 "a") 1))
            ∈ handleRegistryEvent sampleClients "session-1" (mkEvent (reqInput 1 "a") 1)
          ↔ ("session-1" ∈ c.subscriptions ∨ "*" ∈ c.subscriptions)))
      ∧ (∀ c ∈ sampleClients, ∀ m : ServerMessage,
          (c.connId, m) ∈ handleSessionCreated sampleClients "session-1" {}
            → "*" ∈ c.subscriptions)
      ∧ (∀ c ∈ sampleClients, ∀ m : ServerMessage,
          (c.connId, m) ∈ handleSessionClosed sampleClients "session-1"
            → "*" ∈ c.subscriptions)) :=
  ⟨by decide,
   C5_fanout_rule sampleClients "session-1" (mkEvent (reqInput 1 "a") 1) {} (by decide)⟩

/-- C6: a `backfill` request is answered with exactly the session bus's
`getEvents({since, limit})` snapshot, an unknown session id yields an
empty `backfill` reply, and no `error` message is ever produced. -/
theorem C6_backfill_reply (r : EventRegistry) (c : ClientState) (sid : String)
    (since limit : Option Nat) (hop : c.isOpen = true) :
    (∀ bus, r.getBus sid = some bus →
      handleBackfill r c sid since limit
        = [(c.connId, ServerMessage.backfill sid
            (bus.getEvents { since := since, limit := limit }))])
    ∧ (r.getBus sid = none →
      handleBackfill r c sid since limit
        = [(c.connId, ServerMessage.backfill sid [])])
    ∧ (∀ pr ∈ handleBackfill r c sid since limit, ∀ s : String,
        pr.2 ≠ ServerMessage.errorMsg s) := by
  refine ⟨?_, ?_, ?_⟩
  · intro bus hbus
    simp [handleBackfill, hbus, hubSend, hop]
  · intro hnone
    simp [handleBackfill, hnone, hubSend, hop]
  · intro pr hpr s
    cases hmatch : r.getBus sid with
    | none =>
      simp [handleBackfill, hmatch, hubSend, hop] at hpr
      rw [hpr]
      simp
    | some bus =>
      simp [handleBackfill, hmatch, hubSend, hop] at hpr
      rw [hpr]
      simp

/-- Concrete instance discharging C6's open-connection hypothesis. -/
theorem C6_backfill_reply_witness :
    ({ connId := 1, subscriptions := ["session-1"] } : ClientState).isOpen = true
    ∧ ((∀ bus, sampleRegistry.getBus "session-1" = some bus →
        handleBackfill sampleRegistry { connId := 1, subscriptions := ["session-1"] }
            "session-1" (some 2) (some 1)
          = [(({ connId := 1, subscriptions := ["session-1"] } : ClientState).connId,
              ServerMessage.backfill "session-1"
                (bus.getEvents { since := some 2, limit := some 1 }))])
      ∧ (sampleRegistry.getBus "session-1" = none →
        handleBackfill sampleRegistry { connId := 1, subscriptions := ["session-1"] }
            "session-1" (some 2) (some 1)
          = [(({ connId := 1, subscriptions := ["session-1"] } : ClientState).connId,
              ServerMessage.backfill "session-1" [])])
      ∧ (∀ pr ∈ handleBackfill sampleRegistry { connId := 1, subscriptions := ["session-1"] }
            "session-1" (some 2) (some 1), ∀ s : String,
          pr.2 ≠ ServerMessage.errorMsg s)) :=
  ⟨by decide,
   C6_backfill_reply sampleRegistry { connId := 1, subscriptions := ["session-1"] }
     "session-1" (some 2) (some 1) (by decide)⟩

/-- C7: closing an existing session removes its bus, returns the complete
buffered history and fires exactly one closed signal; closing an unknown
id — in particular a second close of the same id — returns `undefined`
and fires no signal. -/
theorem C7_closeSession (r : EventRegistry) (sid : String) :
    (∀ bus, r.getBus sid = some bus →
        (r.closeSession sid).2.1 = some bus.events
      ∧ (r.closeSession sid).2.2 = [RegistrySignal.sessionClosed sid]
      ∧ (r.closeSession sid).1.getBus sid = none
      ∧ (r.closeSession sid).1.closeSession sid = ((r.closeSession sid).1, none, []))
    ∧ (r.getBus sid = none → r.closeSession sid = (r, none, [])) := by
  constructor
  · intro bus hbus
    rw [EventRegistry.getBus] at hbus
    have hcs : r.closeSession sid
        = ({ r with buses := assocErase sid r.buses,
                    metadata := assocErase sid r.metadata },
           some (bus.getEvents {}), [RegistrySignal.sessionClosed sid]) := by
      rw [EventRegistry.closeSession, hbus]
    have hnone : (r.closeSession sid).1.getBus sid = none := by
      rw [hcs]
      simp [EventRegistry.getBus, assocLookup_assocErase_self]
    refine ⟨?_, ?_, hnone, ?_⟩
    · rw [hcs, getEvents_no_opts]
    · rw [hcs]
    · rw [EventRegistry.getBus] at hnone
      rw [EventRegistry.closeSession, hnone]
  · intro hnone
    rw [EventRegistry.getBus] at hnone
    rw [EventRegistry.closeSession, hnone]

/-- Concrete instance discharging C7's existing-session hypothesis on
`sampleRegistry`. -/
theorem C7_closeSession_witness :
    (sampleRegistry.closeSession "session-1").2.1 = some sampleBus.events
    ∧ (sampleRegistry.closeSession "session-1").2.2
        = [RegistrySignal.sessionClosed "session-1"]
    ∧ (sampleRegistry.closeSession "session-1").1.getBus "session-1" = none
    ∧ (sampleRegistry.closeSession "session-1").1.closeSession "session-1"
        = ((sampleRegistry.closeSession "session-1").1, none, []) :=
  (C7_closeSession sampleRegistry "session-1").1 sampleBus (by decide)

/-- C8: both mutating task-store operations read the wrapped store's
status for the task immediately before delegating (`null` when the task
is not found), and emit the `task:status` event only after the wrapped
call succeeds, carrying the new status and, for explicit updates, the
optional status message; on a failing wrapped call no event is emitted
and the error passes through. -/
theorem C8_task_status_events {σ : Type} (inner : TaskStoreModel σ) (s : σ)
    (bus : EventBus) (now : Nat) (taskId status result : String)
    (statusMessage sessionId : Option String) :
    (∀ s1, inner.updateTaskStatus s taskId status statusMessage sessionId = Except.ok s1 →
      ObservableTaskStore.updateTaskStatus inner s bus now taskId status statusMessage sessionId
        = Except.ok (s1, bus.emit
            { type := "task:status", taskId := some taskId,
              previousStatus := some ((inner.getTask s taskId sessionId).map Task.status),
              newStatus := some status, statusMessage := statusMessage } now))
    ∧ (∀ er, inner.updateTaskStatus s taskId status statusMessage sessionId = Except.error er →
      ObservableTaskStore.updateTaskStatus inner s bus now taskId status statusMessage sessionId
        = Except.error er)
    ∧ (∀ s1, inner.storeTaskResult s taskId status result sessionId = Except.ok s1 →
      ObservableTaskStore.storeTaskResult inner s bus now taskId status result sessionId
        = Except.ok (s1, bus.emit
            { type := "task:status", taskId := some taskId,
              previousStatus := some ((inner.getTask s taskId sessionId).map Task.status),
              newStatus := some status } now))
    ∧ (∀ er, inner.storeTaskResult s taskId status result sessionId = Except.error er →
      ObservableTaskStore.storeTaskResult inner s bus now taskId status result sessionId
        = Except.error er) := by
  refine ⟨?_, ?_, ?_, ?_⟩ <;> intro x hx <;>
    simp [ObservableTaskStore.updateTaskStatus, ObservableTaskStore.storeTaskResult, hx]

/-- Concrete instance discharging C8's success hypothesis: updating
`task-1` from `working` to `completed` with a message. -/
theorem C8_task_status_events_witness :
    sampleInnerStore.updateTaskStatus sampleTasks "task-1" "completed" (some "Done!") none
        = Except.ok [("task-1", { taskId := "task-1", status := "completed" })]
    ∧ ObservableTaskStore.updateTaskStatus sampleInnerStore sampleTasks
        (newEventBus "session-1" (some 10)) 5 "task-1" "completed" (some "Done!") none
      = Except.ok ([("task-1", { taskId := "task-1", status := "completed" })],
          (newEventBus "session-1" (some 10)).emit
            { type := "task:status", taskId := some "task-1",
              previousStatus := some ((sampleInnerStore.getTask sampleTasks "task-1" none).map Task.status),
              newStatus := some "completed", statusMessage := some "Done!" } 5) :=
  ⟨rfl,
   (C8_task_status_events sampleInnerStore sampleTasks (newEventBus "session-1" (some 10))
      5 "task-1" "completed" "res" (some "Done!") none).1
     [("task-1", { taskId := "task-1", status := "completed" })] rfl⟩

/-- C9: the wrapped `send` emits exactly one `notification` event for a
message with `method` and no `id`, exactly one `response` event for a
message with `id` and `result` or `error`, and no event otherwise; any
emission precedes the delegation, and the original message is always
forwarded unchanged. -/
theorem C9_wrapped_send (m : JSONRPCMessage) :
    (m.method.isSome = true → m.id = none →
      wrappedSend m
        = [SendAction.emitEvent { type := "notification", method := m.method, params := m.params },
           SendAction.forward m])
    ∧ (m.id.isSome = true → (m.result.isSome = true ∨ m.error.isSome = true) →
      wrappedSend m
        = [SendAction.emitEvent { type := "response", id := m.id, result := m.result, error := m.error },
           SendAction.forward m])
    ∧ (¬ (m.method.isSome = true ∧ m.id = none) →
       ¬ (m.id.isSome = true ∧ (m.result.isSome = true ∨ m.error.isSome = true)) →
      wrappedSend m = [SendAction.forward m]) := by
  refine ⟨?_, ?_, ?_⟩
  · intro hmethod hid
    simp [wrappedSend, isNotificationMsg, hmethod, hid]
  · intro hid hre
    have hn : isNotificationMsg m = false := by
      rw [isNotificationMsg]
      simp [hid]
    rcases hre with hres | herr
    · simp [wrappedSend, hn, isResponseMsg, hid, hres]
    · simp [wrappedSend, hn, isResponseMsg, hid, herr]
  · intro h1 h2
    have hn : isNotificationMsg m = false := by
      rw [isNotificationMsg]
      cases hmm : m.method <;> cases hii : m.id <;> simp_all
    have hr : isResponseMsg m = false := by
      rw [isResponseMsg]
      cases hii : m.id <;> cases hrr : m.result <;> cases hee : m.error <;> simp_all
    simp [wrappedSend, hn, hr]

/-- Concrete instance discharging C9's notification-shape hypotheses. -/
theorem C9_wrapped_send_witness :
    ({ method := some "notifications/progress", params := some "p" } : JSONRPCMessage).method.isSome = true
    ∧ ({ method := some "notifications/progress", params := some "p" } : JSONRPCMessage).id = none
    ∧ wrappedSend { method := some "notifications/progress", params := some "p" }
        = [SendAction.emitEvent
            { type := "notification",
              method := ({ method := some "notifications/progress", params := some "p" } : JSONRPCMessage).method,
              params := ({ method := some "notifications/progress", params := some "p" } : JSONRPCMessage).params },
           SendAction.forward { method := some "notifications/progress", params := some "p" }] :=
  ⟨by decide, by decide,
   (C9_wrapped_send { method := some "notifications/progress", params := some "p" }).1
     (by decide) (by decide)⟩

end McpProbe
